import Mathlib

/-! DMLBench (`src/main.cpp`): adapter selection, provisioning and the fenced timing loop.

A shallow embedding of `InitializeDirectML` and `main`.

* The Windows / DXCore / D3D12 / DirectML / ONNX Runtime calls are external; each
  is represented by an oracle field giving the outcome of the call.
* Exceptions (`THROW_IF_FAILED`, `Ort::ThrowOnError`) are explicit results.
* The out-parameters of `InitializeDirectML` are an explicit record that is
  passed in and handed back, so "nothing was written" is a statement about it.
* `int` is a 32 bit two's-complement integer: values are `Int`, and the one
  addition that can leave the range (`numIterations + fenceValueStart`) is
  reduced with `wrapInt32`.
* `float` values are the rationals they denote; a `float` operation is the
  exact operation followed by rounding to 24 significant bits, ties to even.
-/

namespace DMLBench

/-! ## Handles and call outcomes -/

/-- The Windows `HRESULT`: negative values are failures. -/
abbrev HRESULT := Int

/-- Outcome of a COM creation call: it fails with an `HRESULT` and leaves the
receiving `ComPtr` null, or succeeds and stores an interface pointer. -/
inductive ComResult (α : Type) where
  | failed (hr : HRESULT)
  | ok (p : α)
  deriving DecidableEq, Repr

/-- `THROW_IF_FAILED(call)`: a failed call raises its `HRESULT`, a successful
one continues with the pointer it produced. -/
def THROW_IF_FAILED {α : Type} : ComResult α → Except HRESULT α
  | .failed hr => .error hr
  | .ok p => .ok p

/-- The `IDXCoreAdapterFactory` handle. -/
structure IDXCoreAdapterFactory where
  id : Nat
  deriving DecidableEq, Repr

/-- An enumerated `IDXCoreAdapter`; `supportsGraphics` is the answer of
`IsAttributeSupported(DXCORE_ADAPTER_ATTRIBUTE_D3D12_GRAPHICS)`. -/
structure IDXCoreAdapter where
  id : Nat
  supportsGraphics : Bool
  deriving DecidableEq, Repr

/-- The `ID3D12Device1` handle. -/
structure ID3D12Device1 where
  id : Nat
  deriving DecidableEq, Repr

/-- The `ID3D12CommandQueue` handle. -/
structure ID3D12CommandQueue where
  id : Nat
  deriving DecidableEq, Repr

/-- The `IDMLDevice` handle. -/
structure IDMLDevice where
  id : Nat
  deriving DecidableEq, Repr

/-- The adapter list made by `CreateAdapterList` for the core-compute
attribute: `GetAdapterCount` is its length and entry `i` is the outcome of
`GetAdapter(i)`. -/
abbrev IDXCoreAdapterList := List (ComResult IDXCoreAdapter)

/-- Outcomes of the platform calls made by `InitializeDirectML`. -/
structure Backend where
  /-- `LoadLibraryW(L"DXCore.dll")` returned a module. -/
  dxCoreModule : Bool
  /-- `GetProcAddress(dxCoreModule, "DXCoreCreateAdapterFactory")` is non-null. -/
  dxcoreCreateAdapterFactoryProc : Bool
  /-- `dxcoreCreateAdapterFactory(IID_PPV_ARGS(&factory))`. -/
  dxcoreCreateAdapterFactory : ComResult IDXCoreAdapterFactory
  /-- `factory->CreateAdapterList(...)`. -/
  createAdapterList : IDXCoreAdapterFactory → ComResult IDXCoreAdapterList
  /-- `LoadLibraryW(L"d3d12.dll")` returned a module. -/
  d3d12Module : Bool
  /-- `GetProcAddress(d3d12Module, "D3D12CreateDevice")` is non-null. -/
  d3d12CreateDeviceProc : Bool
  /-- `d3d12CreateDevice(adapter, D3D_FEATURE_LEVEL_1_0_CORE, ...)`. -/
  d3d12CreateDevice : IDXCoreAdapter → ComResult ID3D12Device1
  /-- `d3dDevice->CreateCommandQueue(&queueDesc, ...)`. -/
  createCommandQueue : ID3D12Device1 → ComResult ID3D12CommandQueue
  /-- `LoadLibraryW(L"DirectML.dll")` returned a module. -/
  dmlModule : Bool
  /-- `GetProcAddress(dmlModule, "DMLCreateDevice1")` is non-null. -/
  dmlCreateDeviceProc : Bool
  /-- `dmlCreateDevice(d3dDevice, DML_CREATE_DEVICE_FLAG_NONE, DML_FEATURE_LEVEL_5_0, ...)`. -/
  dmlCreateDevice : ID3D12Device1 → ComResult IDMLDevice

/-! ## `InitializeDirectML` -/

/-- Result of the adapter loop: the `adapter` smart pointer after the loop and
the number of `GetAdapter` calls the loop made. -/
structure Scan where
  adapter : Option IDXCoreAdapter
  fetched : Nat
  deriving DecidableEq, Repr

/-- The loop `for (i = 0; i < adapterCount; i++)` of `InitializeDirectML`:
fetch adapter `i` (raising on failure); if `!forceComputeOnlyDevice` or the
adapter does not support graphics, keep it and `break`. -/
def scanAdapters (forceComputeOnlyDevice : Bool) : IDXCoreAdapterList → Except HRESULT Scan
  | [] => .ok ⟨none, 0⟩
  | call :: rest =>
    match THROW_IF_FAILED call with
    | .error hr => .error hr
    | .ok nextGpuAdapter =>
      if !forceComputeOnlyDevice || !nextGpuAdapter.supportsGraphics then
        .ok ⟨some nextGpuAdapter, 1⟩
      else
        match scanAdapters forceComputeOnlyDevice rest with
        | .error hr => .error hr
        | .ok s => .ok ⟨s.adapter, s.fetched + 1⟩

/-- The `factory` smart pointer after the first block: non-null only when the
library loads, the entry point exists and the call stores a factory (its
`HRESULT` is not inspected). -/
def createFactory (be : Backend) : Option IDXCoreAdapterFactory :=
  if be.dxCoreModule then
    if be.dxcoreCreateAdapterFactoryProc then
      match be.dxcoreCreateAdapterFactory with
      | .ok f => some f
      | .failed _ => none
    else none
  else none

/-- Block "Create the DXCore Adapter": the `adapter` smart pointer after it. -/
def selectAdapter (forceComputeOnlyDevice : Bool) (be : Backend) :
    Except HRESULT (Option IDXCoreAdapter) :=
  match createFactory be with
  | none => .ok none
  | some factory =>
    match THROW_IF_FAILED (be.createAdapterList factory) with
    | .error hr => .error hr
    | .ok adapterList =>
      match scanAdapters forceComputeOnlyDevice adapterList with
      | .error hr => .error hr
      | .ok s => .ok s.adapter

/-- Block "Create the D3D12 Device": the `d3dDevice` smart pointer after it. -/
def createD3D12Device (be : Backend) (adapter : Option IDXCoreAdapter) :
    Except HRESULT (Option ID3D12Device1) :=
  match adapter with
  | none => .ok none
  | some a =>
    if be.d3d12Module then
      if be.d3d12CreateDeviceProc then
        match THROW_IF_FAILED (be.d3d12CreateDevice a) with
        | .error hr => .error hr
        | .ok d => .ok (some d)
      else .ok none
    else .ok none

/-- Block "Create the DML Device and D3D12 Command Queue": the `commandQueue`
and `dmlDevice` smart pointers after it. -/
def createQueueAndDml (be : Backend) (d3dDevice : Option ID3D12Device1) :
    Except HRESULT (Option ID3D12CommandQueue × Option IDMLDevice) :=
  match d3dDevice with
  | none => .ok (none, none)
  | some d =>
    match THROW_IF_FAILED (be.createCommandQueue d) with
    | .error hr => .error hr
    | .ok q =>
      if be.dmlModule then
        if be.dmlCreateDeviceProc then
          match THROW_IF_FAILED (be.dmlCreateDevice d) with
          | .error hr => .error hr
          | .ok c => .ok (some q, some c)
        else .ok (some q, none)
      else .ok (some q, none)

/-- The three pointers behind the out-parameters `d3dDeviceOut`,
`commandQueueOut` and `dmlDeviceOut`. -/
structure Outs where
  d3dDevice : Option ID3D12Device1
  commandQueue : Option ID3D12CommandQueue
  dmlDevice : Option IDMLDevice
  deriving DecidableEq, Repr

/-- The caller's three smart pointers before the call: all null. -/
def Outs.null : Outs := ⟨none, none, none⟩

/-- How a call ended. -/
inductive Completion where
  | returned
  | threw (hr : HRESULT)
  deriving DecidableEq, Repr

/-- `InitializeDirectML` with the local `forceComputeOnlyDevice` as a
parameter. The out-parameters are written only by the three `CopyTo` calls at
the end, which an exception never reaches. -/
def InitializeDirectMLWith (forceComputeOnlyDevice : Bool) (be : Backend) (outs : Outs) :
    Completion × Outs :=
  match selectAdapter forceComputeOnlyDevice be with
  | .error hr => (.threw hr, outs)
  | .ok adapter =>
    match createD3D12Device be adapter with
    | .error hr => (.threw hr, outs)
    | .ok d3dDevice =>
      match createQueueAndDml be d3dDevice with
      | .error hr => (.threw hr, outs)
      | .ok (commandQueue, dmlDevice) =>
        (.returned, ⟨d3dDevice, commandQueue, dmlDevice⟩)

/-- `InitializeDirectML` as written: `bool forceComputeOnlyDevice = true;`. -/
def InitializeDirectML (be : Backend) (outs : Outs) : Completion × Outs :=
  InitializeDirectMLWith true be outs

/-! ## `main` -/

/-- Smallest value of `int`. -/
def INT_MIN : Int := -2147483648

/-- Largest value of `int`. -/
def INT_MAX : Int := 2147483647

/-- Reduction of a mathematical integer to the 32 bit two's-complement `int`
holding it modulo `2^32`. -/
def wrapInt32 (x : Int) : Int := (x + 2147483648) % 4294967296 - 2147483648

/-- Conversion of an `int` to the `UINT64` parameter of `Signal` and
`SetEventOnCompletion`. -/
def toUInt64 (x : Int) : Nat := (x % 18446744073709551616).toNat

/-- The smart pointers `main` dereferences with `->`. -/
inductive Handle where
  | d3dDevice
  | commandQueue
  | fence
  deriving DecidableEq, Repr

/-- How `main` ended: normal return, an exception from `THROW_IF_FAILED`, an
exception from the ONNX Runtime API, or a member call through a null smart
pointer. -/
inductive Status where
  | returned
  | threwResult (hr : HRESULT)
  | threwOrt
  | nullDeref (h : Handle)
  deriving DecidableEq, Repr

/-- The calls `main` makes, in the order it makes them. -/
inductive Event where
  /-- `printf("Please use the commandline:...")`. -/
  | printUsage
  /-- `printf("%s\n", providers_msg.c_str())`. -/
  | printProviders
  /-- `printf("No NPU device found\n")`. -/
  | printNoNpu
  /-- `SessionOptionsAppendExecutionProvider_DML1(sessionOptions, dmlDevice, commandQueue)`. -/
  | appendExecutionProvider
  /-- `Ort::Session(s_OrtEnv, modelFile, sessionOptions)`. -/
  | createSession
  /-- `printf("load model Took: %f ms\n", ...)`. -/
  | printLoadTime
  /-- The block printing the input and output node counts and shapes. -/
  | printNodeInfo
  /-- `CreateDmlValue(tensor_info, commandQueue.Get())`. -/
  | createDmlValue
  /-- `session.Run(...)`. -/
  | run
  /-- `d3dDevice->CreateFence(0, D3D12_FENCE_FLAG_NONE, ...)`. -/
  | createFence
  /-- `commandQueue->Signal(fence.Get(), v)`. -/
  | signal (v : Nat)
  /-- `CreateEvent(nullptr, FALSE, FALSE, nullptr)`. -/
  | createEvent
  /-- `ResetEvent(fenceEvent.get())`. -/
  | resetEvent
  /-- `fence->SetEventOnCompletion(v, fenceEvent.get())`. -/
  | setEventOnCompletion (v : Nat)
  /-- `WaitForSingleObject(fenceEvent.get(), INFINITE)`. -/
  | waitForSingleObject
  /-- `printf("Warm Took: %f ms\n", ...)`. -/
  | printWarm
  /-- `printf("Average inference time: %f ms\n", duration / numIterations)`. -/
  | printAverage
  deriving DecidableEq, Repr

/-- Outcomes of the ONNX Runtime calls and of `CreateFence` in `main`; `true`
means the call does not raise (for `createFence`: a fence was stored).
`CreateDmlValue` is declared in `TensorHelper.h`, which is not among the
sources; like the library calls, only its outcome enters. -/
structure Runtime where
  /-- `Ort::Env`, `DisableTelemetryEvents` and the `SessionOptions` setters. -/
  envAndOptions : Bool
  /-- `ThrowOnError(ortApi.GetExecutionProviderApi("DML", ...))`. -/
  getExecutionProviderApi : Bool
  /-- `ThrowOnError(ortDmlApi->SessionOptionsAppendExecutionProvider_DML1(...))`. -/
  appendExecutionProvider : Bool
  /-- The `Ort::Session` constructor. -/
  createSession : Bool
  /-- The queries of the node-printing block. -/
  describeNodes : Bool
  /-- The input `GetInputTypeInfo(0)` and `CreateDmlValue`. -/
  createInput : Bool
  /-- `GetTensorMemoryInfo`, `Ort::Allocator` and the input
  `GetD3D12ResourceFromAllocation`. -/
  getInputResource : Bool
  /-- The output `GetOutputTypeInfo(0)` and `CreateDmlValue`. -/
  createOutput : Bool
  /-- Call number `k` of `session.Run` (the warmup is call `0`). -/
  run : Nat → Bool
  /-- `d3dDevice->CreateFence` stored a fence (its `HRESULT` is not inspected). -/
  createFence : Bool
  /-- The output `GetD3D12ResourceFromAllocation`. -/
  getOutputResource : Bool

/-- A stretch of `main`: the calls it made and, when control left `main`
inside it, how; `none` means control reached the statement after it. -/
structure Step where
  status : Option Status
  events : List Event
  deriving DecidableEq, Repr

/-- Sequencing: the second stretch runs only when the first fell through. -/
def Step.andThen (s k : Step) : Step :=
  match s.status with
  | some st => ⟨some st, s.events⟩
  | none => ⟨k.status, s.events ++ k.events⟩

/-- A call that raises an `Ort::Exception` unless `ok`; `calls` are the calls
made by the statement. -/
def throwOnError (ok : Bool) (calls : List Event) : Step :=
  if ok then ⟨none, calls⟩ else ⟨some .threwOrt, calls⟩

/-- Lines 135 to 194 of `main`: environment, session options with the DML
execution provider, session creation, node report, input and output tensors. -/
def setupSession (rt : Runtime) : Step :=
  (throwOnError rt.envAndOptions []).andThen <|
  (throwOnError rt.getExecutionProviderApi []).andThen <|
  (throwOnError rt.appendExecutionProvider [.appendExecutionProvider]).andThen <|
  (throwOnError rt.createSession [.createSession]).andThen <|
  (Step.mk none [.printLoadTime]).andThen <|
  (throwOnError rt.describeNodes [.printNodeInfo]).andThen <|
  (throwOnError rt.createInput [.createDmlValue]).andThen <|
  (throwOnError rt.getInputResource []).andThen <|
  (throwOnError rt.createOutput [.createDmlValue])

/-- The warmup: `session.Run`, then `d3dDevice->CreateFence`,
`commandQueue->Signal(fence, 1)`, `CreateEvent`,
`fence->SetEventOnCompletion(1, ...)`, `WaitForSingleObject` and the report. -/
def warmup (rt : Runtime) (outs : Outs) : Step :=
  if rt.run 0 then
    match outs.d3dDevice with
    | none => ⟨some (.nullDeref .d3dDevice), [.run]⟩
    | some _ =>
      match outs.commandQueue with
      | none => ⟨some (.nullDeref .commandQueue), [.run, .createFence]⟩
      | some _ =>
        if rt.createFence then
          ⟨none, [.run, .createFence, .signal 1, .createEvent,
                  .setEventOnCompletion 1, .waitForSingleObject, .printWarm]⟩
        else
          ⟨some (.nullDeref .fence), [.run, .createFence, .signal 1, .createEvent]⟩
  else ⟨some .threwOrt, [.run]⟩

/-- The calls of one pass through the body of the timed loop at counter `i`. -/
def iterationEvents (i : Int) : List Event :=
  [.run, .signal (toUInt64 i), .resetEvent, .setEventOnCompletion (toUInt64 i),
   .waitForSingleObject]

/-- The loop `for (int i = fenceValueStart; i < bound; i++)` from counter `i`
on, `calls` being the number of `session.Run` calls made so far. The counter
stays below `bound`, so `i++` does not leave the range of `int`. The loop is
reached only after the warmup went through `commandQueue` and `fence`, which
are not assigned again. -/
def timedLoop (rt : Runtime) (bound : Int) (i : Int) (calls : Nat) : Step :=
  if i < bound then
    if rt.run calls then
      (Step.mk none (iterationEvents i)).andThen (timedLoop rt bound (i + 1) (calls + 1))
    else ⟨some .threwOrt, [.run]⟩
  else ⟨none, []⟩
termination_by (bound - i).toNat
decreasing_by omega

/-- After the loop: the average is printed and the output resource fetched. -/
def finish (rt : Runtime) : Step :=
  throwOnError rt.getOutputResource [.printAverage]

/-- The value of `numIterations`: `atoi(argv[2])` (an `int`, given as `argv2`)
when `argc > 2`, else the default `100`. -/
def numIterationsOf (argc : Nat) (argv2 : Int) : Int :=
  if argc > 2 then wrapInt32 argv2 else 100

/-- The program `main`; `argv2` is what `atoi(argv[2])` returns. -/
def main (argc : Nat) (argv2 : Int) (be : Backend) (rt : Runtime) : Status × List Event :=
  if argc < 2 then (.returned, [.printUsage, .printProviders])
  else
    let fenceValueStart : Int := 2
    let numIterations : Int := numIterationsOf argc argv2
    match InitializeDirectML be Outs.null with
    | (.threw hr, _) => (.threwResult hr, [])
    | (.returned, outs) =>
      match outs.dmlDevice with
      | none => (.returned, [.printNoNpu])
      | some _ =>
        let r := (setupSession rt).andThen <| (warmup rt outs).andThen <|
          (timedLoop rt (wrapInt32 (numIterations + fenceValueStart)) fenceValueStart 1).andThen <|
          finish rt
        (r.status.getD .returned, r.events)

/-! ## Observations on a trace -/

/-- The fence values passed to `Signal`, in call order. -/
def signalsOf (t : List Event) : List Nat :=
  t.filterMap fun e => match e with
    | .signal v => some v
    | _ => none

/-- The number of `session.Run` calls. -/
def runCount (t : List Event) : Nat := t.count .run

/-- Host-side operations of the benchmark protocol. -/
inductive HostOp where
  | run
  | signal (v : Nat)
  | wait (v : Nat)
  deriving DecidableEq, Repr

/-- The protocol view of a trace: `run`, `signal v`, and `wait v` for each
`WaitForSingleObject` on the event last armed by `SetEventOnCompletion(v)`
(`armed` is the value armed and not yet waited for). -/
def hostOpsFrom (armed : Option Nat) : List Event → List HostOp
  | [] => []
  | .run :: es => .run :: hostOpsFrom armed es
  | .signal v :: es => .signal v :: hostOpsFrom armed es
  | .setEventOnCompletion v :: es => hostOpsFrom (some v) es
  | .waitForSingleObject :: es =>
    match armed with
    | some v => .wait v :: hostOpsFrom none es
    | none => hostOpsFrom none es
  | _ :: es => hostOpsFrom armed es

/-- The protocol view of a whole trace. -/
def hostOps (t : List Event) : List HostOp := hostOpsFrom none t

/-! ## The reported average -/

/-- Rounding of a rational to the nearest integer, a tie going to the even
neighbour (the IEEE 754 default rounding direction). -/
def roundEven (x : ℚ) : ℤ :=
  if x - ⌊x⌋ < 1 / 2 then ⌊x⌋
  else if 1 / 2 < x - ⌊x⌋ then ⌊x⌋ + 1
  else if ⌊x⌋ % 2 = 0 then ⌊x⌋ else ⌊x⌋ + 1

/-- The `float` (IEEE 754 binary32) nearest to `q`, as a rational: `q` is
rounded to 24 significant bits, ties to even. The exponent is not bounded;
`averageLatency_operands_normal` shows that every value rounded on the way to
the reported average lies in the normal range of binary32, where this is the
value the hardware produces. -/
def binary32 (q : ℚ) : ℚ :=
  if q = 0 then 0
  else (SignType.sign q : ℤ) * roundEven (|q| / 2 ^ (Int.log 2 |q| - 23))
    * 2 ^ (Int.log 2 |q| - 23)

/-- The value `main` hands to `printf("Average inference time: %f ms\n", ...)`:
`float duration = duration_cast<microseconds>(end - start).count() / 1000.f;`
then `duration / numIterations`. `span` is `end - start` in ticks of
`system_clock`, of which there are `ticksPerMicrosecond` to a microsecond (10
with the Microsoft library, 1000 with libstdc++). `duration_cast` divides the
ticks as integers, truncating toward zero; the count and `numIterations` are
converted to `float`; both divisions are `float` divisions. -/
def averageLatency (ticksPerMicrosecond : ℕ) (span : ℤ) (numIterations : ℤ) : ℚ :=
  let count : ℤ := span.tdiv ticksPerMicrosecond
  let duration : ℚ := binary32 (binary32 count / 1000)
  binary32 (duration / binary32 numIterations)

/-- The average the specification asks for, `totalSpan / iterations`, in
milliseconds and without any rounding. -/
def averageLatencySpec (ticksPerMicrosecond : ℕ) (span : ℤ) (numIterations : ℤ) : ℚ :=
  (span : ℚ) / (ticksPerMicrosecond * 1000) / numIterations

/-! ## Concrete machines -/

/-- A machine on which every library loads and every call succeeds, and whose
core-compute adapters are `adapters`, in enumeration order. -/
def enumerating (adapters : List IDXCoreAdapter) : Backend where
  dxCoreModule := true
  dxcoreCreateAdapterFactoryProc := true
  dxcoreCreateAdapterFactory := .ok ⟨0⟩
  createAdapterList := fun _ => .ok (adapters.map .ok)
  d3d12Module := true
  d3d12CreateDeviceProc := true
  d3d12CreateDevice := fun a => .ok ⟨a.id⟩
  createCommandQueue := fun d => .ok ⟨d.id⟩
  dmlModule := true
  dmlCreateDeviceProc := true
  dmlCreateDevice := fun d => .ok ⟨d.id⟩

/-- A machine with a GPU (adapter 0, graphics capable) and an NPU (adapter 1,
compute only). -/
def npuBackend : Backend := enumerating [⟨0, true⟩, ⟨1, false⟩]

/-- A machine whose only core-compute adapter is a graphics capable GPU. -/
def gpuOnlyBackend : Backend := enumerating [⟨0, true⟩]

/-- A machine on which DXCore enumerates no core-compute adapter. -/
def noAdapterBackend : Backend := enumerating []

/-- The machine `npuBackend` without a loadable `DirectML.dll`. -/
def noDirectMLBackend : Backend where
  dxCoreModule := true
  dxcoreCreateAdapterFactoryProc := true
  dxcoreCreateAdapterFactory := .ok ⟨0⟩
  createAdapterList := fun _ => .ok [.ok ⟨0, true⟩, .ok ⟨1, false⟩]
  d3d12Module := true
  d3d12CreateDeviceProc := true
  d3d12CreateDevice := fun a => .ok ⟨a.id⟩
  createCommandQueue := fun d => .ok ⟨d.id⟩
  dmlModule := false
  dmlCreateDeviceProc := true
  dmlCreateDevice := fun d => .ok ⟨d.id⟩

/-- The machine `npuBackend` on which `CreateCommandQueue` fails with
`E_FAIL` (`0x80004005`). -/
def queueFailsBackend : Backend where
  dxCoreModule := true
  dxcoreCreateAdapterFactoryProc := true
  dxcoreCreateAdapterFactory := .ok ⟨0⟩
  createAdapterList := fun _ => .ok [.ok ⟨0, true⟩, .ok ⟨1, false⟩]
  d3d12Module := true
  d3d12CreateDeviceProc := true
  d3d12CreateDevice := fun a => .ok ⟨a.id⟩
  createCommandQueue := fun _ => .failed (-2147467259)
  dmlModule := true
  dmlCreateDeviceProc := true
  dmlCreateDevice := fun d => .ok ⟨d.id⟩

/-- A runtime on which every call succeeds. -/
def okRuntime : Runtime where
  envAndOptions := true
  getExecutionProviderApi := true
  appendExecutionProvider := true
  createSession := true
  describeNodes := true
  createInput := true
  getInputResource := true
  createOutput := true
  run := fun _ => true
  createFence := true
  getOutputResource := true

/-! ## Predicates and closed forms used in the statements -/

/-- Every call guarded by `Ort::ThrowOnError` or raising on its own goes
through, and `CreateFence` stores a fence. -/
def Runtime.allOk (rt : Runtime) : Prop :=
  rt.envAndOptions = true ∧ rt.getExecutionProviderApi = true
  ∧ rt.appendExecutionProvider = true ∧ rt.createSession = true
  ∧ rt.describeNodes = true ∧ rt.createInput = true ∧ rt.getInputResource = true
  ∧ rt.createOutput = true ∧ (∀ k, rt.run k = true) ∧ rt.createFence = true
  ∧ rt.getOutputResource = true

/-- The calls of `m` consecutive passes through the loop body, the first at
counter `i`. -/
def loopEvents : Nat → Int → List Event
  | 0, _ => []
  | m + 1, i => iterationEvents i ++ loopEvents m (i + 1)

/-- The calls before the warmup on a run without failure. -/
def setupEvents : List Event :=
  [.appendExecutionProvider, .createSession, .printLoadTime, .printNodeInfo,
   .createDmlValue, .createDmlValue]

/-- The calls of the warmup on a run without failure. -/
def warmupEvents : List Event :=
  [.run, .createFence, .signal 1, .createEvent, .setEventOnCompletion 1,
   .waitForSingleObject, .printWarm]

/-! ## Adapter selection -/

/-- C1. For every adapter list and every value of the flag, the adapter loop
selects the first adapter, in enumeration order, for which the flag is false
or graphics is unsupported, after fetching exactly the adapters up to and
including it (all of them when none qualifies); once an adapter qualifies,
the entries behind it have no influence, whatever fetching them would give.
The empty list selects none, and `[A(graphics), B(graphics), C(no graphics)]`
with the flag set selects `C`. -/
theorem scanAdapters_selects_first (forceComputeOnlyDevice : Bool)
    (adapters : List IDXCoreAdapter) (behind : IDXCoreAdapterList) :
    scanAdapters forceComputeOnlyDevice (adapters.map .ok) =
        .ok ⟨adapters.find? (fun a => !forceComputeOnlyDevice || !a.supportsGraphics),
             min (adapters.findIdx
               (fun a => !forceComputeOnlyDevice || !a.supportsGraphics) + 1) adapters.length⟩
    ∧ (adapters.any (fun a => !forceComputeOnlyDevice || !a.supportsGraphics) = true →
        scanAdapters forceComputeOnlyDevice (adapters.map .ok ++ behind) =
          scanAdapters forceComputeOnlyDevice (adapters.map .ok))
    ∧ selectAdapter forceComputeOnlyDevice (enumerating adapters) =
        .ok (adapters.find? (fun a => !forceComputeOnlyDevice || !a.supportsGraphics))
    ∧ scanAdapters forceComputeOnlyDevice [] = .ok ⟨none, 0⟩
    ∧ scanAdapters true [.ok ⟨0, true⟩, .ok ⟨1, true⟩, .ok ⟨2, false⟩] =
        .ok ⟨some ⟨2, false⟩, 3⟩ := by
  have hscan : scanAdapters forceComputeOnlyDevice (adapters.map .ok) =
      .ok ⟨adapters.find? (fun a => !forceComputeOnlyDevice || !a.supportsGraphics),
           min (adapters.findIdx
             (fun a => !forceComputeOnlyDevice || !a.supportsGraphics) + 1) adapters.length⟩ := by
    induction adapters with
    | nil => rfl
    | cons a rest ih =>
      by_cases h : (!forceComputeOnlyDevice || !a.supportsGraphics) = true
      · simp [scanAdapters, THROW_IF_FAILED, h, List.findIdx_cons]
      · simp only [List.map_cons, scanAdapters, THROW_IF_FAILED, h, if_false, ih,
          List.find?_cons, List.findIdx_cons, List.length_cons]
        simp only [Bool.not_eq_true] at h
        simp only [h, cond_false, Bool.false_eq_true, if_false]
        congr 2
        omega
  refine ⟨hscan, ?_, ?_, rfl, rfl⟩
  · clear hscan
    induction adapters with
    | nil => simp
    | cons a rest ih =>
      intro hany
      by_cases h : (!forceComputeOnlyDevice || !a.supportsGraphics) = true
      · simp [scanAdapters, THROW_IF_FAILED, h]
      · have hrest : rest.any
            (fun a => !forceComputeOnlyDevice || !a.supportsGraphics) = true := by
          simp only [Bool.not_eq_true] at h
          simpa [List.any_cons, h] using hany
        have hstep := ih hrest
        simp only [List.map_cons, List.cons_append, scanAdapters, THROW_IF_FAILED, h,
          if_false]
        simp only [List.append_eq, hstep]
  · simp only [selectAdapter, createFactory, enumerating, if_true, THROW_IF_FAILED, hscan]

/-- Instance of `scanAdapters_selects_first`: with the flag set and the list
`[A(graphics), B(graphics), C(no graphics)]` followed by an entry whose
`GetAdapter` would fail, the loop selects `C` after three fetches. -/
theorem scanAdapters_selects_first_witness :
    scanAdapters true
      ([.ok ⟨0, true⟩, .ok ⟨1, true⟩, .ok ⟨2, false⟩] ++ [.failed (-2147467259)]) =
      .ok ⟨some ⟨2, false⟩, 3⟩ :=
  ((scanAdapters_selects_first true [⟨0, true⟩, ⟨1, true⟩, ⟨2, false⟩]
      [.failed (-2147467259)]).2.1 (by decide)).trans rfl

/-- C2 as stated fails: with the flag set, the single graphics capable adapter
`A` is fetched and skipped, no adapter is selected, and `InitializeDirectML`
hands back three null pointers. -/
theorem graphics_only_adapter_not_selected :
    scanAdapters true [.ok ⟨0, true⟩] = .ok ⟨none, 1⟩
    ∧ selectAdapter true gpuOnlyBackend = .ok none
    ∧ InitializeDirectML gpuOnlyBackend Outs.null = (.returned, ⟨none, none, none⟩) :=
  ⟨rfl, rfl, rfl⟩

/-- C2, amended. For every adapter list in which every adapter supports
graphics, the loop with the flag set fetches every adapter and selects none,
so that `InitializeDirectML` on a machine enumerating these adapters returns
three null pointers; with the flag clear the loop selects the first adapter of
the list after one fetch (none for the empty list). -/
theorem scanAdapters_all_graphics (adapters : List IDXCoreAdapter)
    (hall : ∀ a ∈ adapters, a.supportsGraphics = true) :
    scanAdapters true (adapters.map .ok) = .ok ⟨none, adapters.length⟩
    ∧ InitializeDirectML (enumerating adapters) Outs.null = (.returned, ⟨none, none, none⟩)
    ∧ scanAdapters false (adapters.map .ok) = .ok ⟨adapters.head?, min 1 adapters.length⟩ := by
  have hscan : scanAdapters true (adapters.map .ok) = .ok ⟨none, adapters.length⟩ := by
    induction adapters with
    | nil => rfl
    | cons a rest ih =>
      have ha : a.supportsGraphics = true := hall a (List.mem_cons_self a rest)
      have hrest := ih (fun b hb => hall b (List.mem_cons_of_mem a hb))
      simp [scanAdapters, THROW_IF_FAILED, ha, hrest]
  refine ⟨hscan, ?_, ?_⟩
  · have hsel : selectAdapter true (enumerating adapters) = .ok none := by
      simp only [selectAdapter, createFactory, enumerating, if_true, THROW_IF_FAILED, hscan]
    simp [InitializeDirectML, InitializeDirectMLWith, hsel, createD3D12Device,
      createQueueAndDml]
  · cases adapters with
    | nil => rfl
    | cons a rest => simp [scanAdapters, THROW_IF_FAILED]

/-- Instance of `scanAdapters_all_graphics` on two graphics capable adapters. -/
theorem scanAdapters_all_graphics_witness :
    scanAdapters true [.ok ⟨0, true⟩, .ok ⟨1, true⟩] = .ok ⟨none, 2⟩
    ∧ InitializeDirectML (enumerating [⟨0, true⟩, ⟨1, true⟩]) Outs.null =
        (.returned, ⟨none, none, none⟩)
    ∧ scanAdapters false [.ok ⟨0, true⟩, .ok ⟨1, true⟩] = .ok ⟨some ⟨0, true⟩, 1⟩ :=
  scanAdapters_all_graphics [⟨0, true⟩, ⟨1, true⟩] (by decide)

/-! ## Provisioning -/

/-- The shapes in which `InitializeDirectML` can end, for either value of the
flag: an exception with the out-parameters untouched, or a normal return with
all three pointers null, all three set, or device and queue set and the DML
device null (only when `DirectML.dll` or `DMLCreateDevice1` is missing). -/
theorem InitializeDirectMLWith_outcome (flag : Bool) (be : Backend) (outs : Outs) :
    (∃ hr, InitializeDirectMLWith flag be outs = (.threw hr, outs))
    ∨ InitializeDirectMLWith flag be outs = (.returned, ⟨none, none, none⟩)
    ∨ (∃ d q c, InitializeDirectMLWith flag be outs = (.returned, ⟨some d, some q, some c⟩))
    ∨ (∃ d q, InitializeDirectMLWith flag be outs = (.returned, ⟨some d, some q, none⟩)
        ∧ (be.dmlModule = false ∨ be.dmlCreateDeviceProc = false)) := by
  unfold InitializeDirectMLWith
  cases selectAdapter flag be with
  | error hr => exact Or.inl ⟨hr, rfl⟩
  | ok adapter =>
    dsimp only
    cases createD3D12Device be adapter with
    | error hr => exact Or.inl ⟨hr, rfl⟩
    | ok d3dDevice =>
      dsimp only
      cases d3dDevice with
      | none => exact Or.inr (Or.inl rfl)
      | some d =>
        simp only [createQueueAndDml]
        cases be.createCommandQueue d with
        | failed hr => exact Or.inl ⟨hr, rfl⟩
        | ok q =>
          simp only [THROW_IF_FAILED]
          cases hm : be.dmlModule with
          | false => exact Or.inr (Or.inr (Or.inr ⟨d, q, rfl, Or.inl rfl⟩))
          | true =>
            cases hp : be.dmlCreateDeviceProc with
            | false => exact Or.inr (Or.inr (Or.inr ⟨d, q, rfl, Or.inr rfl⟩))
            | true =>
              simp only [if_true]
              cases be.dmlCreateDevice d with
              | failed hr => exact Or.inl ⟨hr, rfl⟩
              | ok c => exact Or.inr (Or.inr (Or.inl ⟨d, q, c, rfl⟩))

/-- C5 as stated fails: when `DirectML.dll` cannot be loaded and everything
else succeeds, `InitializeDirectML` returns normally with the device and the
command queue set and the DML device null. -/
theorem InitializeDirectML_partial_result :
    InitializeDirectML noDirectMLBackend Outs.null =
      (.returned, ⟨some ⟨1⟩, some ⟨1⟩, none⟩) :=
  rfl

/-- C5, amended. For every combination of outcomes of the provisioning steps,
`InitializeDirectML` either raises an error and writes none of its
out-parameters, or returns with all three pointers null, or with all three
set, or with device and command queue set and the DML device null, the last
only when `DirectML.dll` or its entry point `DMLCreateDevice1` is missing. -/
theorem InitializeDirectML_result_shapes (be : Backend) (outs : Outs) :
    (∃ hr, InitializeDirectML be outs = (.threw hr, outs))
    ∨ InitializeDirectML be outs = (.returned, ⟨none, none, none⟩)
    ∨ (∃ d q c, InitializeDirectML be outs = (.returned, ⟨some d, some q, some c⟩))
    ∨ (∃ d q, InitializeDirectML be outs = (.returned, ⟨some d, some q, none⟩)
        ∧ (be.dmlModule = false ∨ be.dmlCreateDeviceProc = false)) :=
  InitializeDirectMLWith_outcome true be outs

/-- C6. Whenever an adapter is selected and device creation on it succeeds,
a failing `CreateCommandQueue` makes `InitializeDirectML` raise that error
with its three out-parameters unwritten; the caller's three null pointers stay
null, and `main` ends with the exception before making any call. -/
theorem InitializeDirectML_queue_failure (be : Backend) (outs : Outs)
    (a : IDXCoreAdapter) (d : ID3D12Device1) (hr : HRESULT)
    (hsel : selectAdapter true be = .ok (some a))
    (hdev : createD3D12Device be (some a) = .ok (some d))
    (hq : be.createCommandQueue d = .failed hr) :
    InitializeDirectML be outs = (.threw hr, outs)
    ∧ (InitializeDirectML be Outs.null).2 = ⟨none, none, none⟩
    ∧ ∀ (argc : Nat) (argv2 : Int) (rt : Runtime), 2 ≤ argc →
        main argc argv2 be rt = (.threwResult hr, []) := by
  have key : ∀ o : Outs, InitializeDirectML be o = (.threw hr, o) := by
    intro o
    simp only [InitializeDirectML, InitializeDirectMLWith, hsel, hdev, createQueueAndDml, hq,
      THROW_IF_FAILED]
  refine ⟨key outs, ?_, ?_⟩
  · rw [key Outs.null]
    rfl
  · intro argc argv2 rt hargc
    have hlt : ¬ argc < 2 := by omega
    simp only [main, hlt, if_false, key Outs.null]

/-- Instance of `InitializeDirectML_queue_failure`: the NPU is selected, its
device is created, `CreateCommandQueue` fails with `E_FAIL`. -/
theorem InitializeDirectML_queue_failure_witness :
    (selectAdapter true queueFailsBackend = .ok (some ⟨1, false⟩)
      ∧ createD3D12Device queueFailsBackend (some ⟨1, false⟩) = .ok (some ⟨1⟩)
      ∧ queueFailsBackend.createCommandQueue ⟨1⟩ = .failed (-2147467259))
    ∧ InitializeDirectML queueFailsBackend Outs.null = (.threw (-2147467259), Outs.null)
    ∧ main 3 100 queueFailsBackend okRuntime = (.threwResult (-2147467259), []) :=
  have h := InitializeDirectML_queue_failure queueFailsBackend Outs.null ⟨1, false⟩ ⟨1⟩
    (-2147467259) rfl rfl rfl
  ⟨⟨rfl, rfl, rfl⟩, h.1, h.2.2 3 100 okRuntime (by decide)⟩

/-! ## `main` when no DML device is returned -/

/-- The causes named for a missing DML device do lead to a normal return with
that pointer null: no adapter selected, `d3d12.dll` or `D3D12CreateDevice`
missing, or (once device and queue exist) `DirectML.dll` or `DMLCreateDevice1`
missing. -/
theorem InitializeDirectML_null_dml_causes (be : Backend) (outs : Outs) :
    (selectAdapter true be = .ok none →
      InitializeDirectML be outs = (.returned, ⟨none, none, none⟩))
    ∧ (∀ adapter, selectAdapter true be = .ok adapter →
        (be.d3d12Module = false ∨ be.d3d12CreateDeviceProc = false) →
        InitializeDirectML be outs = (.returned, ⟨none, none, none⟩))
    ∧ (∀ adapter d q, selectAdapter true be = .ok adapter →
        createD3D12Device be adapter = .ok (some d) →
        be.createCommandQueue d = .ok q →
        (be.dmlModule = false ∨ be.dmlCreateDeviceProc = false) →
        InitializeDirectML be outs = (.returned, ⟨some d, some q, none⟩)) := by
  refine ⟨?_, ?_, ?_⟩
  · intro hsel
    simp [InitializeDirectML, InitializeDirectMLWith, hsel, createD3D12Device,
      createQueueAndDml]
  · intro adapter hsel hmiss
    cases adapter with
    | none =>
      simp [InitializeDirectML, InitializeDirectMLWith, hsel, createD3D12Device,
        createQueueAndDml]
    | some a =>
      rcases hmiss with h | h <;>
        simp [InitializeDirectML, InitializeDirectMLWith, hsel, createD3D12Device,
          createQueueAndDml, h]
  · intro adapter d q hsel hdev hq hmiss
    rcases hmiss with h | h <;>
      simp [InitializeDirectML, InitializeDirectMLWith, hsel, hdev, createQueueAndDml, hq,
        THROW_IF_FAILED, h]

/-- C7. For every invocation of `main` with a model path (`argc >= 2`): when
`InitializeDirectML` returns with a null DML device, `main` prints
"No NPU device found" and returns normally, having made no other call: no
session is created and there is no `Run`, `Signal` or wait. -/
theorem main_without_dml_device (argc : Nat) (argv2 : Int) (be : Backend) (rt : Runtime)
    (outs : Outs) (hargc : 2 ≤ argc)
    (hret : InitializeDirectML be Outs.null = (.returned, outs))
    (hnull : outs.dmlDevice = none) :
    main argc argv2 be rt = (.returned, [.printNoNpu]) := by
  have hlt : ¬ argc < 2 := by omega
  simp only [main, hlt, if_false, hret, hnull]

/-- Instance of `main_without_dml_device`: no adapter is enumerated. -/
theorem main_without_dml_device_witness :
    InitializeDirectML noAdapterBackend Outs.null = (.returned, ⟨none, none, none⟩)
    ∧ main 2 0 noAdapterBackend okRuntime = (.returned, [.printNoNpu]) :=
  ⟨rfl, main_without_dml_device 2 0 noAdapterBackend okRuntime ⟨none, none, none⟩
    (by decide) rfl rfl⟩

/-! ## Null pointers in `main` -/

/-- On `okRuntime` every call succeeds. -/
theorem okRuntime_allOk : okRuntime.allOk := by
  simp [Runtime.allOk, okRuntime]

/-- When no `session.Run` raises, the loop runs to its end and makes
`bound - i` passes (none when `bound <= i`). -/
theorem timedLoop_of_runs_ok (rt : Runtime) (hrun : ∀ k, rt.run k = true) (bound : Int) :
    ∀ (m : Nat) (i : Int) (calls : Nat), (bound - i).toNat = m →
      timedLoop rt bound i calls = ⟨none, loopEvents m i⟩ := by
  intro m
  induction m with
  | zero =>
    intro i calls hm
    have hge : ¬ i < bound := by omega
    rw [timedLoop]
    simp [hge, loopEvents]
  | succ m ih =>
    intro i calls hm
    have hlt : i < bound := by omega
    rw [timedLoop]
    simp only [hlt, if_true, hrun calls, ih (i + 1) (calls + 1) (by omega), Step.andThen,
      loopEvents]

/-- The whole of `main` on a run without failure, given what
`InitializeDirectML` returned: set-up, warmup, then
`wrapInt32 (numIterations + 2) - 2` passes of the loop (none when that is not
positive), then the report. -/
theorem main_of_allOk (argc : Nat) (argv2 : Int) (be : Backend) (rt : Runtime)
    (d : ID3D12Device1) (q : ID3D12CommandQueue) (c : IDMLDevice)
    (hargc : 2 ≤ argc)
    (hret : InitializeDirectML be Outs.null = (.returned, ⟨some d, some q, some c⟩))
    (hok : rt.allOk) :
    main argc argv2 be rt =
      (.returned, setupEvents ++ (warmupEvents ++
        (loopEvents (wrapInt32 (numIterationsOf argc argv2 + 2) - 2).toNat 2
          ++ [.printAverage]))) := by
  obtain ⟨h1, h2, h3, h4, h5, h6, h7, h8, hrun, h10, h11⟩ := hok
  have hlt : ¬ argc < 2 := by omega
  simp only [main, hlt, if_false, hret, setupSession, warmup, finish, throwOnError,
    h1, h2, h3, h4, h5, h6, h7, h8, hrun 0, h10, h11, if_true,
    timedLoop_of_runs_ok rt hrun _ _ 2 1 rfl]
  rfl

/-- The machine with an NPU returns all three pointers. -/
theorem npuBackend_provisions :
    InitializeDirectML npuBackend Outs.null = (.returned, ⟨some ⟨1⟩, some ⟨1⟩, some ⟨1⟩⟩) :=
  rfl

/-- The complete run of `main model 2147483646` on the machine with an NPU:
`numIterations + fenceValueStart` wraps to `-2147483648`, the loop condition
`2 < -2147483648` fails at once, and only the warmup is executed. -/
theorem main_at_overflow :
    main 3 2147483646 npuBackend okRuntime =
      (.returned, setupEvents ++ (warmupEvents ++ [.printAverage])) := by
  rw [main_of_allOk 3 2147483646 npuBackend okRuntime ⟨1⟩ ⟨1⟩ ⟨1⟩ (by decide)
    npuBackend_provisions okRuntime_allOk]
  have hb : (wrapInt32 (numIterationsOf 3 2147483646 + 2) - 2).toNat = 0 := by
    simp [numIterationsOf, wrapInt32]
  rw [hb]
  rfl

/-- The fence values signaled by `m` passes of the loop starting at counter `i`. -/
theorem signalsOf_loopEvents : ∀ (m : Nat) (i : Int),
    signalsOf (loopEvents m i) = (List.range m).map (fun (j : Nat) => toUInt64 (i + (j : Int))) := by
  intro m
  induction m with
  | zero => intro i; rfl
  | succ m ih =>
    intro i
    have hhead : signalsOf (iterationEvents i) = [toUInt64 i] := by
      simp [signalsOf, iterationEvents]
    have hsplit : signalsOf (iterationEvents i ++ loopEvents m (i + 1)) =
        signalsOf (iterationEvents i) ++ signalsOf (loopEvents m (i + 1)) := by
      simp [signalsOf, List.filterMap_append]
    rw [loopEvents, hsplit, hhead, ih (i + 1), List.range_succ_eq_map, List.map_cons,
      List.map_map]
    simp only [List.singleton_append, Nat.cast_zero, add_zero, List.cons.injEq, true_and]
    apply List.map_congr_left
    intro j _
    simp only [Function.comp, Nat.succ_eq_add_one, Nat.cast_add, Nat.cast_one]
    congr 1
    ring

/-- The protocol view of `m` passes of the loop starting at counter `i`. -/
theorem hostOps_loopEvents : ∀ (m : Nat) (i : Int),
    hostOpsFrom none (loopEvents m i) =
      (List.range m).flatMap (fun (j : Nat) =>
        [HostOp.run, .signal (toUInt64 (i + (j : Int))), .wait (toUInt64 (i + (j : Int)))]) := by
  intro m
  induction m with
  | zero => intro i; rfl
  | succ m ih =>
    intro i
    rw [loopEvents, List.range_succ_eq_map, List.flatMap_cons]
    simp only [iterationEvents, List.cons_append, List.nil_append, List.append_eq,
      hostOpsFrom, ih (i + 1), Nat.cast_zero, add_zero, List.cons.injEq, true_and]
    simp only [List.flatMap, List.map_map]
    congr 1
    apply List.map_congr_left
    intro j _
    simp only [Function.comp, Nat.succ_eq_add_one, Nat.cast_add, Nat.cast_one]
    have hidx : i + 1 + (j : Int) = i + ((j : Int) + 1) := by ring
    rw [hidx]

/-- The number of `session.Run` calls in `m` passes of the loop. -/
theorem runCount_loopEvents : ∀ (m : Nat) (i : Int), runCount (loopEvents m i) = m := by
  intro m
  induction m with
  | zero => intro i; rfl
  | succ m ih =>
    intro i
    have hrest := ih (i + 1)
    unfold runCount at hrest ⊢
    rw [loopEvents, List.count_append, hrest]
    simp [iterationEvents, List.count_cons]
    omega

/-- The value of `numIterations` is an `int`. -/
theorem numIterationsOf_is_int (argc : Nat) (argv2 : Int) :
    INT_MIN ≤ numIterationsOf argc argv2 ∧ numIterationsOf argc argv2 ≤ INT_MAX := by
  unfold numIterationsOf wrapInt32 INT_MIN INT_MAX
  split <;> omega

/-- The number of passes of the timed loop when `numIterations + 2` fits `int`. -/
theorem passes_in_range (argc : Nat) (argv2 : Int)
    (hfit : numIterationsOf argc argv2 + 2 ≤ INT_MAX) :
    (wrapInt32 (numIterationsOf argc argv2 + 2) - 2).toNat = (numIterationsOf argc argv2).toNat
    ∧ numIterationsOf argc argv2 + 2 ≤ 2147483647 := by
  unfold INT_MAX at hfit
  refine ⟨?_, hfit⟩
  have hlow : -2147483648 ≤ numIterationsOf argc argv2 :=
    (numIterationsOf_is_int argc argv2).1
  generalize numIterationsOf argc argv2 = n at hfit hlow ⊢
  unfold wrapInt32
  omega

/-- Fence values on a complete run when `numIterations + 2` fits `int`: `1`,
then `2, 3, ..., numIterations + 1`. -/
theorem signals_in_range (argc : Nat) (argv2 : Int) (be : Backend) (rt : Runtime)
    (d : ID3D12Device1) (q : ID3D12CommandQueue) (c : IDMLDevice)
    (hargc : 2 ≤ argc)
    (hret : InitializeDirectML be Outs.null = (.returned, ⟨some d, some q, some c⟩))
    (hok : rt.allOk)
    (hfit : numIterationsOf argc argv2 + 2 ≤ INT_MAX) :
    signalsOf (main argc argv2 be rt).2 =
      1 :: (List.range (numIterationsOf argc argv2).toNat).map (fun j => j + 2) := by
  obtain ⟨hpass, hmax⟩ := passes_in_range argc argv2 hfit
  rw [main_of_allOk argc argv2 be rt d q c hargc hret hok, hpass]
  have hsplit : signalsOf (setupEvents ++ (warmupEvents ++
      (loopEvents (numIterationsOf argc argv2).toNat 2 ++ [Event.printAverage]))) =
      1 :: signalsOf (loopEvents (numIterationsOf argc argv2).toNat 2) := by
    simp [signalsOf, setupEvents, warmupEvents, List.filterMap_append]
  rw [hsplit, signalsOf_loopEvents]
  congr 1
  apply List.map_congr_left
  intro j hj
  have hjlt : j < (numIterationsOf argc argv2).toNat := List.mem_range.mp hj
  unfold toUInt64
  omega

/-- Protocol view of a complete run when `numIterations + 2` fits `int`:
`numIterations + 1` calls of `session.Run` (one when `numIterations` is
negative), each followed by its `Signal` and the wait on the same value. -/
theorem hostOps_in_range (argc : Nat) (argv2 : Int) (be : Backend) (rt : Runtime)
    (d : ID3D12Device1) (q : ID3D12CommandQueue) (c : IDMLDevice)
    (hargc : 2 ≤ argc)
    (hret : InitializeDirectML be Outs.null = (.returned, ⟨some d, some q, some c⟩))
    (hok : rt.allOk)
    (hfit : numIterationsOf argc argv2 + 2 ≤ INT_MAX) :
    runCount (main argc argv2 be rt).2 = (numIterationsOf argc argv2).toNat + 1
    ∧ hostOps (main argc argv2 be rt).2 =
        [HostOp.run, .signal 1, .wait 1] ++
          (List.range (numIterationsOf argc argv2).toNat).flatMap (fun j =>
            [HostOp.run, .signal (j + 2), .wait (j + 2)]) := by
  obtain ⟨hpass, hmax⟩ := passes_in_range argc argv2 hfit
  rw [main_of_allOk argc argv2 be rt d q c hargc hret hok, hpass]
  constructor
  · have hrest := runCount_loopEvents (numIterationsOf argc argv2).toNat 2
    unfold runCount at hrest ⊢
    simp only [List.count_append, hrest]
    simp [setupEvents, warmupEvents, List.count_cons]
    omega
  · have hview : ∀ t : List Event, hostOps (setupEvents ++ (warmupEvents ++ t)) =
        [HostOp.run, .signal 1, .wait 1] ++ hostOpsFrom none t := by
      intro t
      simp [hostOps, setupEvents, warmupEvents, hostOpsFrom]
    have htail : ∀ (m : Nat) (i : Int), hostOpsFrom none (loopEvents m i ++ [Event.printAverage]) =
        hostOpsFrom none (loopEvents m i) := by
      intro m
      induction m with
      | zero => intro i; rfl
      | succ m ih =>
        intro i
        simp only [loopEvents, iterationEvents, List.cons_append, List.nil_append,
          List.append_eq, hostOpsFrom, ih (i + 1)]
    rw [hview, htail, hostOps_loopEvents]
    congr 1
    simp only [List.flatMap]
    congr 1
    apply List.map_congr_left
    intro j hj
    have hjlt : j < (numIterationsOf argc argv2).toNat := List.mem_range.mp hj
    have hv : toUInt64 (2 + (j : Int)) = j + 2 := by
      unfold toUInt64
      omega
    rw [hv]

/-- Instance of `signals_in_range`: `main model 3` signals `1, 2, 3, 4`. -/
theorem signals_in_range_witness :
    signalsOf (main 3 3 npuBackend okRuntime).2 = [1, 2, 3, 4] :=
  (signals_in_range 3 3 npuBackend okRuntime ⟨1⟩ ⟨1⟩ ⟨1⟩ (by decide) npuBackend_provisions
    okRuntime_allOk (by decide)).trans (by decide)

/-- Instance of `hostOps_in_range`: `main model 2` makes three `session.Run`
calls, each followed by its signal and wait. -/
theorem hostOps_in_range_witness :
    runCount (main 3 2 npuBackend okRuntime).2 = 3
    ∧ hostOps (main 3 2 npuBackend okRuntime).2 =
        [.run, .signal 1, .wait 1, .run, .signal 2, .wait 2, .run, .signal 3, .wait 3] :=
  have h := hostOps_in_range 3 2 npuBackend okRuntime ⟨1⟩ ⟨1⟩ ⟨1⟩ (by decide)
    npuBackend_provisions okRuntime_allOk (by decide)
  ⟨h.1.trans (by decide), h.2.trans (by decide)⟩

/-! ## Fence monotonicity -/

/-- The calls of a sequence are those of its first stretch, followed by those
of the second when the first fell through. -/
theorem Step.andThen_events (s k : Step) :
    (s.andThen k).events = s.events
    ∨ (s.status = none ∧ (s.andThen k).events = s.events ++ k.events) := by
  unfold Step.andThen
  cases h : s.status with
  | none => exact Or.inr ⟨rfl, rfl⟩
  | some st => exact Or.inl rfl

/-- `signalsOf` distributes over concatenation. -/
theorem signalsOf_append (a b : List Event) :
    signalsOf (a ++ b) = signalsOf a ++ signalsOf b := by
  simp [signalsOf, List.filterMap_append]

/-- The set-up makes no `Signal` call, however far it gets. -/
theorem signalsOf_setupSession (rt : Runtime) : signalsOf (setupSession rt).events = [] := by
  unfold setupSession throwOnError
  cases rt.envAndOptions <;> cases rt.getExecutionProviderApi <;>
    cases rt.appendExecutionProvider <;> cases rt.createSession <;>
    cases rt.describeNodes <;> cases rt.createInput <;> cases rt.getInputResource <;>
    cases rt.createOutput <;> rfl

/-- However far the timed loop gets, the values it signals from counter `i`
on are strictly increasing and at least `i`. -/
theorem signalsOf_timedLoop (rt : Runtime) (bound : Int) (hbound : bound ≤ 2147483647) :
    ∀ (m : Nat) (i : Int) (calls : Nat), (bound - i).toNat = m → 0 ≤ i →
      (signalsOf (timedLoop rt bound i calls).events).Pairwise (· < ·)
      ∧ ∀ v ∈ signalsOf (timedLoop rt bound i calls).events, i.toNat ≤ v := by
  intro m
  induction m with
  | zero =>
    intro i calls hm hi
    have hge : ¬ i < bound := by omega
    rw [timedLoop]
    simp [hge, signalsOf]
  | succ m ih =>
    intro i calls hm hi
    have hlt : i < bound := by omega
    rw [timedLoop]
    cases hrun : rt.run calls with
    | false => simp [hlt, signalsOf]
    | true =>
      obtain ⟨hpw, hge⟩ := ih (i + 1) (calls + 1) (by omega) (by omega)
      have hv : toUInt64 i = i.toNat := by
        unfold toUInt64
        omega
      have hev : (Step.andThen ⟨none, iterationEvents i⟩
          (timedLoop rt bound (i + 1) (calls + 1))).events =
          iterationEvents i ++ (timedLoop rt bound (i + 1) (calls + 1)).events := rfl
      have hsig : signalsOf (iterationEvents i ++
          (timedLoop rt bound (i + 1) (calls + 1)).events) =
          i.toNat :: signalsOf (timedLoop rt bound (i + 1) (calls + 1)).events := by
        rw [signalsOf_append]
        simp [signalsOf, iterationEvents, hv]
      simp only [hlt, if_true, hev, hsig, List.pairwise_cons, List.mem_cons]
      refine ⟨⟨fun v hvmem => ?_, hpw⟩, fun v hvmem => ?_⟩
      · have := hge v hvmem
        omega
      · rcases hvmem with h | h
        · omega
        · have := hge v h
          omega


/-- The warmup signals nothing or the value `1`. -/
theorem signalsOf_warmup (rt : Runtime) (outs : Outs) :
    signalsOf (warmup rt outs).events = [] ∨ signalsOf (warmup rt outs).events = [1] := by
  unfold warmup
  cases rt.run 0 <;> cases outs.d3dDevice <;> cases outs.commandQueue <;>
    cases rt.createFence <;> simp [signalsOf]

/-- Fence monotonicity on every run of `main`, complete or not and whatever
the iteration count: each value passed to `Signal` is strictly greater than
all values passed before it. -/
theorem signals_strictly_increasing (argc : Nat) (argv2 : Int) (be : Backend) (rt : Runtime) :
    (signalsOf (main argc argv2 be rt).2).Pairwise (· < ·) := by
  unfold main
  by_cases hlt : argc < 2
  · simp [hlt, signalsOf]
  · simp only [hlt, if_false]
    rcases hinit : InitializeDirectML be Outs.null with ⟨c, outs⟩
    cases c with
    | threw hr => simp [signalsOf]
    | returned =>
      cases hdml : outs.dmlDevice with
      | none => simp [hdml, signalsOf]
      | some dml =>
        simp only [hdml]
        have hwrap : wrapInt32 (numIterationsOf argc argv2 + 2) ≤ 2147483647 := by
          unfold wrapInt32
          omega
        obtain ⟨hpw, hge⟩ := signalsOf_timedLoop rt _ hwrap _ 2 1 rfl (by omega)
        have hfin : signalsOf (finish rt).events = [] := by
          unfold finish throwOnError
          cases rt.getOutputResource <;> rfl
        generalize timedLoop rt (wrapInt32 (numIterationsOf argc argv2 + 2)) 2 1 = L at hpw hge ⊢
        have htail : signalsOf (L.andThen (finish rt)).events = signalsOf L.events := by
          rcases Step.andThen_events L (finish rt) with h | ⟨_, h⟩
          · rw [h]
          · rw [h, signalsOf_append, hfin, List.append_nil]
        generalize L.andThen (finish rt) = Y at htail ⊢
        have hmid : (signalsOf ((warmup rt outs).andThen Y).events).Pairwise (· < ·) := by
          rcases Step.andThen_events (warmup rt outs) Y with h | ⟨_, h⟩
          · rw [h]
            rcases signalsOf_warmup rt outs with hw | hw <;> rw [hw] <;> simp
          · rw [h, signalsOf_append, htail]
            rcases signalsOf_warmup rt outs with hw | hw <;> rw [hw]
            · simpa using hpw
            · simp only [List.singleton_append, List.pairwise_cons]
              refine ⟨fun v hv => ?_, hpw⟩
              have := hge v hv
              omega
        generalize (warmup rt outs).andThen Y = X at hmid ⊢
        rcases Step.andThen_events (setupSession rt) X with h | ⟨_, h⟩
        · rw [h, signalsOf_setupSession]
          exact List.Pairwise.nil
        · rw [h, signalsOf_append, signalsOf_setupSession, List.nil_append]
          exact hmid

/-! ## The run `main model 2147483646` -/

/-- C3 at `argv[2] = "2147483646"`: on the machine with an NPU and with every
call succeeding, `main` returns normally having passed to `Signal` the single
fence value `1`, and not the sequence `1, 2, 3, ..., 2147483647`. -/
theorem signals_at_overflow :
    (main 3 2147483646 npuBackend okRuntime).1 = .returned
    ∧ signalsOf (main 3 2147483646 npuBackend okRuntime).2 = [1]
    ∧ (signalsOf (main 3 2147483646 npuBackend okRuntime).2).length <
        (1 :: (List.range 2147483646).map (fun j => j + 2)).length := by
  rw [main_at_overflow]
  refine ⟨rfl, rfl, ?_⟩
  have hlen : (signalsOf (setupEvents ++ (warmupEvents ++ [Event.printAverage]))).length = 1 :=
    rfl
  rw [hlen, List.length_cons, List.length_map, List.length_range]
  omega

/-- C9 at `argv[2] = "2147483646"`: on the machine with an NPU and with every
call succeeding, `main` makes one call of `session.Run` (the warmup), not
`2147483647`, and its protocol view is `run, signal 1, wait 1` only. -/
theorem hostOps_at_overflow :
    runCount (main 3 2147483646 npuBackend okRuntime).2 = 1
    ∧ hostOps (main 3 2147483646 npuBackend okRuntime).2 = [.run, .signal 1, .wait 1]
    ∧ runCount (main 3 2147483646 npuBackend okRuntime).2 < 2147483646 + 1 := by
  rw [main_at_overflow]
  have hcount : runCount (setupEvents ++ (warmupEvents ++ [Event.printAverage])) = 1 := by
    decide
  refine ⟨hcount, rfl, ?_⟩
  rw [hcount]
  omega

/-! ## The reported average: truncation and rounding -/

/-- `roundEven` moves its argument by at most one half. -/
theorem roundEven_abs_sub_le (x : ℚ) : |(roundEven x : ℚ) - x| ≤ 1 / 2 := by
  have h1 : (⌊x⌋ : ℚ) ≤ x := Int.floor_le x
  have h2 : x < (⌊x⌋ : ℚ) + 1 := Int.lt_floor_add_one x
  unfold roundEven
  split_ifs with ha hb hc
  · rw [abs_le]; constructor <;> linarith
  · rw [abs_le]; push_cast; constructor <;> linarith
  · rw [abs_le]; constructor <;> linarith
  · rw [abs_le]; push_cast; constructor <;> linarith

/-- An integer closer than one half to `x` is `roundEven x`. -/
theorem roundEven_of_abs_sub_lt (x : ℚ) (r : ℤ) (h : |x - r| < 1 / 2) : roundEven x = r := by
  rw [abs_lt] at h
  unfold roundEven
  have h1 : (⌊x⌋ : ℚ) ≤ x := Int.floor_le x
  have h2 : x < (⌊x⌋ : ℚ) + 1 := Int.lt_floor_add_one x
  split_ifs with ha hb hc
  · have : (⌊x⌋ : ℚ) < r + 1 := by linarith
    have : (r : ℚ) < ⌊x⌋ + 1 := by linarith
    have h3 : ⌊x⌋ < r + 1 := by exact_mod_cast ‹(⌊x⌋ : ℚ) < r + 1›
    have h4 : r < ⌊x⌋ + 1 := by exact_mod_cast ‹(r : ℚ) < ⌊x⌋ + 1›
    omega
  · have h3 : (⌊x⌋ : ℚ) + 1 < r + 1 := by linarith
    have h4 : (r : ℚ) < ⌊x⌋ + 1 + 1 := by linarith
    have h5 : ⌊x⌋ + 1 < r + 1 := by exact_mod_cast h3
    have h6 : r < ⌊x⌋ + 1 + 1 := by exact_mod_cast h4
    omega
  · exfalso
    have : x - ⌊x⌋ = 1 / 2 := le_antisymm (not_lt.mp hb) (not_lt.mp ha)
    have h3 : (⌊x⌋ : ℚ) < r := by linarith
    have h4 : (r : ℚ) < ⌊x⌋ + 1 := by linarith
    have h5 : ⌊x⌋ < r := by exact_mod_cast h3
    have h6 : r < ⌊x⌋ + 1 := by exact_mod_cast h4
    omega
  · exfalso
    have : x - ⌊x⌋ = 1 / 2 := le_antisymm (not_lt.mp hb) (not_lt.mp ha)
    have h3 : (⌊x⌋ : ℚ) < r := by linarith
    have h4 : (r : ℚ) < ⌊x⌋ + 1 := by linarith
    have h5 : ⌊x⌋ < r := by exact_mod_cast h3
    have h6 : r < ⌊x⌋ + 1 := by exact_mod_cast h4
    omega

/-- `roundEven` leaves integers alone. -/
theorem roundEven_intCast (k : ℤ) : roundEven (k : ℚ) = k :=
  roundEven_of_abs_sub_lt _ k (by simp)

/-- `binary32` on a positive rational. -/
theorem binary32_of_pos (q : ℚ) (hq : 0 < q) :
    binary32 q = roundEven (q / 2 ^ (Int.log 2 q - 23)) * 2 ^ (Int.log 2 q - 23) := by
  unfold binary32
  rw [if_neg hq.ne', abs_of_pos hq, sign_pos hq]
  simp

/-- `binary32` is odd. -/
theorem binary32_neg (q : ℚ) : binary32 (-q) = -binary32 q := by
  unfold binary32
  by_cases h : q = 0
  · simp [h]
  · have h2 : -q ≠ 0 := neg_ne_zero.mpr h
    rw [if_neg h, if_neg h2, abs_neg, Left.sign_neg]
    push_cast
    ring

/-- Zero is a `float`. -/
theorem binary32_zero : binary32 0 = 0 := by simp [binary32]

/-- Evaluation of `binary32` at a positive value with binary exponent `e`
whose scaled significand is closer than one half to the integer `r`. -/
theorem binary32_eval (q : ℚ) (e r : ℤ) (hlo : (2 : ℚ) ^ e ≤ q) (hhi : q < 2 ^ (e + 1))
    (hr : |q / 2 ^ (e - 23) - r| < 1 / 2) : binary32 q = r * 2 ^ (e - 23) := by
  have hpos : 0 < q := lt_of_lt_of_le (by positivity) hlo
  have he : Int.log 2 q = e := by
    have h1 : e ≤ Int.log 2 q := (Int.zpow_le_iff_le_log (by norm_num) hpos).mp (by exact_mod_cast hlo)
    have h2 : Int.log 2 q < e + 1 := (Int.lt_zpow_iff_log_lt (by norm_num) hpos).mp (by exact_mod_cast hhi)
    omega
  rw [binary32_of_pos q hpos, he, roundEven_of_abs_sub_lt _ r hr]

/-- Rounding to `float` changes a value by at most `2^-24` of its size. -/
theorem binary32_abs_sub_le (q : ℚ) : |binary32 q - q| ≤ |q| / 2 ^ 24 := by
  have hpos : ∀ x : ℚ, 0 < x → |binary32 x - x| ≤ |x| / 2 ^ 24 := by
    intro x hx
    have hp : (0 : ℚ) < 2 ^ (Int.log 2 x - 23) := by positivity
    have hlog : (2 : ℚ) ^ Int.log 2 x ≤ x := by
      have := Int.zpow_log_le_self (b := 2) (r := x) (by norm_num) hx
      exact_mod_cast this
    have hsplit : (2 : ℚ) ^ (Int.log 2 x - 23) = 2 ^ Int.log 2 x / 2 ^ 23 := by
      rw [zpow_sub₀ (by norm_num)]
      norm_num
    have hround := roundEven_abs_sub_le (x / 2 ^ (Int.log 2 x - 23))
    have hdiff : binary32 x - x =
        ((roundEven (x / 2 ^ (Int.log 2 x - 23)) : ℚ) - x / 2 ^ (Int.log 2 x - 23))
          * 2 ^ (Int.log 2 x - 23) := by
      rw [binary32_of_pos x hx]
      field_simp
    rw [hdiff, abs_mul, abs_of_pos hp, abs_of_pos hx]
    calc |(roundEven (x / 2 ^ (Int.log 2 x - 23)) : ℚ) - x / 2 ^ (Int.log 2 x - 23)|
          * 2 ^ (Int.log 2 x - 23)
        ≤ 1 / 2 * 2 ^ (Int.log 2 x - 23) := by
          exact mul_le_mul_of_nonneg_right hround hp.le
      _ = 2 ^ Int.log 2 x / 2 ^ 24 := by rw [hsplit]; ring
      _ ≤ x / 2 ^ 24 := by
          exact div_le_div_of_nonneg_right hlog (by positivity)
  rcases lt_trichotomy q 0 with h | h | h
  · have := hpos (-q) (neg_pos.mpr h)
    rw [binary32_neg, abs_neg] at this
    rw [show binary32 q - q = -(-binary32 q - -q) by ring, abs_neg]
    exact this
  · simp [h, binary32_zero]
  · exact hpos q h

/-- Rounding to `float` as a relative perturbation of at most `2^-24`. -/
theorem binary32_rel (q : ℚ) : ∃ δ : ℚ, |δ| ≤ 1 / 2 ^ 24 ∧ binary32 q = q * (1 + δ) := by
  by_cases h : q = 0
  · exact ⟨0, by norm_num, by simp [h, binary32_zero]⟩
  · refine ⟨(binary32 q - q) / q, ?_, by field_simp⟩
    rw [abs_div, div_le_iff₀ (abs_pos.mpr h)]
    have := binary32_abs_sub_le q
    calc |binary32 q - q| ≤ |q| / 2 ^ 24 := this
      _ = 1 / 2 ^ 24 * |q| := by ring

/-- Integers of absolute value below `2^24` are `float`s. -/
theorem binary32_intCast (k : ℤ) (hk : |k| < 2 ^ 24) : binary32 (k : ℚ) = k := by
  have hpos : ∀ j : ℤ, 0 < j → j < 2 ^ 24 → binary32 (j : ℚ) = j := by
    intro j hj0 hj
    have hq : (0 : ℚ) < j := by exact_mod_cast hj0
    have hlt : Int.log 2 (j : ℚ) < 24 := by
      apply (Int.lt_zpow_iff_log_lt (by norm_num) hq).mp
      have h24 : (j : ℚ) < 2 ^ (24 : ℕ) := by exact_mod_cast hj
      have hz : ((2 : ℕ) : ℚ) ^ ((24 : ℕ) : ℤ) = 2 ^ (24 : ℕ) := by
        rw [zpow_natCast]
        norm_num
      exact hz ▸ h24
    obtain ⟨s, hs⟩ : ∃ s : ℕ, Int.log 2 (j : ℚ) - 23 = -(s : ℤ) :=
      ⟨(23 - Int.log 2 (j : ℚ)).toNat, by omega⟩
    rw [binary32_of_pos _ hq, hs]
    have hx : (j : ℚ) / 2 ^ (-(s : ℤ)) = ((j * 2 ^ s : ℤ) : ℚ) := by
      rw [zpow_neg, zpow_natCast]
      push_cast
      field_simp
    rw [hx, roundEven_intCast, zpow_neg, zpow_natCast]
    push_cast
    field_simp
  rcases lt_trichotomy k 0 with h | h | h
  · have hneg := hpos (-k) (by omega) (by rw [abs_of_neg h] at hk; exact hk)
    have h2 : ((-k : ℤ) : ℚ) = -(k : ℚ) := by push_cast; ring
    rw [h2, binary32_neg] at hneg
    linarith
  · simp [h, binary32_zero]
  · exact hpos k h (by rw [abs_of_pos h] at hk; exact hk)

/-- The reported average is odd in the span. -/
theorem averageLatency_neg (tpm : ℕ) (T n : ℤ) :
    averageLatency tpm (-T) n = -averageLatency tpm T n := by
  unfold averageLatency
  simp only [Int.neg_tdiv, Int.cast_neg, binary32_neg, neg_div]

/-- The exact average is odd in the span. -/
theorem averageLatencySpec_neg (tpm : ℕ) (T n : ℤ) :
    averageLatencySpec tpm (-T) n = -averageLatencySpec tpm T n := by
  unfold averageLatencySpec
  push_cast
  ring

/-- The four roundings move the average of a whole microsecond count by at
most `2^-21` of its size. -/
theorem averageLatency_rounding (c n : ℤ) (hn : 1 ≤ n) :
    |averageLatency 1 c n - (c : ℚ) / 1000 / n| ≤ |(c : ℚ) / 1000 / n| / 2 ^ 21 := by
  obtain ⟨d1, hd1, h1⟩ := binary32_rel (c : ℚ)
  obtain ⟨d2, hd2, h2⟩ := binary32_rel (binary32 (c : ℚ) / 1000)
  obtain ⟨d3, hd3, h3⟩ := binary32_rel (n : ℚ)
  obtain ⟨d4, hd4, h4⟩ := binary32_rel (binary32 (binary32 (c : ℚ) / 1000) / binary32 (n : ℚ))
  have hnq : (0 : ℚ) < n := by exact_mod_cast (by omega : (0 : ℤ) < n)
  rw [abs_le] at hd1 hd2 hd3 hd4
  have hB : (0 : ℚ) < 1 + d3 := by norm_num at hd3 ⊢; linarith [hd3.1]
  have hval : averageLatency 1 c n =
      (c : ℚ) / 1000 / n * ((1 + d1) * (1 + d2) * (1 + d4) / (1 + d3)) := by
    unfold averageLatency
    simp only [Nat.cast_one, Int.tdiv_one]
    rw [h4, h2, h1, h3]
    field_simp
    ring
  have hρ : |(1 + d1) * (1 + d2) * (1 + d4) / (1 + d3) - 1| ≤ 1 / 2 ^ 21 := by
    have hl1 : (1 : ℚ) - 1 / 2 ^ 24 ≤ 1 + d1 := by linarith [hd1.1]
    have hl2 : (1 : ℚ) - 1 / 2 ^ 24 ≤ 1 + d2 := by linarith [hd2.1]
    have hl4 : (1 : ℚ) - 1 / 2 ^ 24 ≤ 1 + d4 := by linarith [hd4.1]
    have hu1 : 1 + d1 ≤ (1 : ℚ) + 1 / 2 ^ 24 := by linarith [hd1.2]
    have hu2 : 1 + d2 ≤ (1 : ℚ) + 1 / 2 ^ 24 := by linarith [hd2.2]
    have hu4 : 1 + d4 ≤ (1 : ℚ) + 1 / 2 ^ 24 := by linarith [hd4.2]
    have hl0 : (0 : ℚ) ≤ 1 - 1 / 2 ^ 24 := by norm_num
    have hp1 : (0 : ℚ) ≤ 1 + d1 := le_trans hl0 hl1
    have hp2 : (0 : ℚ) ≤ 1 + d2 := le_trans hl0 hl2
    have hp4 : (0 : ℚ) ≤ 1 + d4 := le_trans hl0 hl4
    have hlow12 : ((1 : ℚ) - 1 / 2 ^ 24) * (1 - 1 / 2 ^ 24) ≤ (1 + d1) * (1 + d2) :=
      mul_le_mul hl1 hl2 hl0 hp1
    have hup12 : (1 + d1) * (1 + d2) ≤ ((1 : ℚ) + 1 / 2 ^ 24) * (1 + 1 / 2 ^ 24) :=
      mul_le_mul hu1 hu2 hp2 (by norm_num)
    have hlow : ((1 : ℚ) - 1 / 2 ^ 24) * (1 - 1 / 2 ^ 24) * (1 - 1 / 2 ^ 24)
        ≤ (1 + d1) * (1 + d2) * (1 + d4) :=
      mul_le_mul hlow12 hl4 hl0 (mul_nonneg hp1 hp2)
    have hup : (1 + d1) * (1 + d2) * (1 + d4)
        ≤ ((1 : ℚ) + 1 / 2 ^ 24) * (1 + 1 / 2 ^ 24) * (1 + 1 / 2 ^ 24) :=
      mul_le_mul hup12 hu4 hp4 (by norm_num)
    rw [abs_le]
    constructor
    · rw [le_sub_iff_add_le, le_div_iff₀ hB]
      calc (-(1 / 2 ^ 21) + 1) * (1 + d3)
          ≤ (-(1 / 2 ^ 21) + 1) * ((1 : ℚ) + 1 / 2 ^ 24) :=
            mul_le_mul_of_nonneg_left (by linarith [hd3.2]) (by norm_num)
        _ ≤ ((1 : ℚ) - 1 / 2 ^ 24) * (1 - 1 / 2 ^ 24) * (1 - 1 / 2 ^ 24) := by norm_num
        _ ≤ (1 + d1) * (1 + d2) * (1 + d4) := hlow
    · rw [sub_le_iff_le_add, div_le_iff₀ hB]
      calc (1 + d1) * (1 + d2) * (1 + d4)
          ≤ ((1 : ℚ) + 1 / 2 ^ 24) * (1 + 1 / 2 ^ 24) * (1 + 1 / 2 ^ 24) := hup
        _ ≤ (1 / 2 ^ 21 + 1) * ((1 : ℚ) - 1 / 2 ^ 24) := by norm_num
        _ ≤ (1 / 2 ^ 21 + 1) * (1 + d3) :=
            mul_le_mul_of_nonneg_left (by linarith [hd3.1]) (by norm_num)
  rw [hval]
  calc |(c : ℚ) / 1000 / n * ((1 + d1) * (1 + d2) * (1 + d4) / (1 + d3)) - (c : ℚ) / 1000 / n|
      = |(c : ℚ) / 1000 / n| * |(1 + d1) * (1 + d2) * (1 + d4) / (1 + d3) - 1| := by
        rw [← abs_mul]
        congr 1
        ring
    _ ≤ |(c : ℚ) / 1000 / n| * (1 / 2 ^ 21) := mul_le_mul_of_nonneg_left hρ (abs_nonneg _)
    _ = |(c : ℚ) / 1000 / n| / 2 ^ 21 := by ring

/-- The reported average is a function of the truncated microsecond count. -/
theorem averageLatency_whole_microseconds (tpm : ℕ) (T n : ℤ) :
    averageLatency tpm T n = averageLatency 1 (T.tdiv tpm) n := by
  unfold averageLatency
  simp only [Nat.cast_one, Int.tdiv_one]

/-- Truncation to whole microseconds lowers the average of a non-negative
span by at most one microsecond divided by `n`. -/
theorem truncation_nonneg (tpm : ℕ) (T n : ℤ) (htpm : 0 < tpm) (hT : 0 ≤ T) (hn : 1 ≤ n) :
    0 ≤ ((T.tdiv tpm : ℤ) : ℚ) / 1000 / n
    ∧ ((T.tdiv tpm : ℤ) : ℚ) / 1000 / n ≤ averageLatencySpec tpm T n
    ∧ averageLatencySpec tpm T n - ((T.tdiv tpm : ℤ) : ℚ) / 1000 / n ≤ 1 / (1000 * n) := by
  have hnq : (0 : ℚ) < n := by exact_mod_cast (by omega : (0 : ℤ) < n)
  have hkq : (0 : ℚ) < tpm := by exact_mod_cast htpm
  have hk : (0 : ℤ) < tpm := by exact_mod_cast htpm
  have hc : 0 ≤ T.tdiv tpm := Int.tdiv_nonneg hT hk.le
  have hsum := Int.tdiv_add_tmod T tpm
  have ht0 : 0 ≤ T.tmod tpm := Int.tmod_nonneg _ hT
  have ht1 : T.tmod tpm < tpm := Int.tmod_lt_of_pos _ hk
  have hcq : (0 : ℚ) ≤ (T.tdiv tpm : ℤ) := by exact_mod_cast hc
  have hTq : (T : ℚ) = tpm * (T.tdiv tpm : ℤ) + (T.tmod tpm : ℤ) := by exact_mod_cast hsum.symm
  have ht0q : (0 : ℚ) ≤ (T.tmod tpm : ℤ) := by exact_mod_cast ht0
  have ht1q : ((T.tmod tpm : ℤ) : ℚ) ≤ tpm := by exact_mod_cast ht1.le
  have hdiff : averageLatencySpec tpm T n - ((T.tdiv tpm : ℤ) : ℚ) / 1000 / n =
      ((T.tmod tpm : ℤ) : ℚ) / tpm / (1000 * n) := by
    unfold averageLatencySpec
    rw [hTq]
    field_simp
    ring
  have hfrac0 : (0 : ℚ) ≤ ((T.tmod tpm : ℤ) : ℚ) / tpm / (1000 * n) := by positivity
  have hfrac1 : ((T.tmod tpm : ℤ) : ℚ) / tpm / (1000 * n) ≤ 1 / (1000 * n) := by
    apply div_le_div_of_nonneg_right _ (by positivity)
    rw [div_le_one hkq]
    exact ht1q
  refine ⟨by positivity, by linarith, by linarith⟩

/-- Distance between reported and exact average, non-negative span. -/
theorem averageLatency_error_nonneg (tpm : ℕ) (T n : ℤ) (htpm : 0 < tpm) (hT : 0 ≤ T)
    (hn : 1 ≤ n) :
    |averageLatency tpm T n - averageLatencySpec tpm T n|
      ≤ 1 / (1000 * n) + |averageLatencySpec tpm T n| / 2 ^ 21 := by
  obtain ⟨hK0, hKS, hSK⟩ := truncation_nonneg tpm T n htpm hT hn
  have hround := averageLatency_rounding (T.tdiv tpm) n hn
  rw [← averageLatency_whole_microseconds] at hround
  have hS0 : 0 ≤ averageLatencySpec tpm T n := le_trans hK0 hKS
  rw [abs_of_nonneg hK0] at hround
  rw [abs_of_nonneg hS0]
  rw [abs_le] at hround ⊢
  have hmono : ((T.tdiv tpm : ℤ) : ℚ) / 1000 / n / 2 ^ 21 ≤ averageLatencySpec tpm T n / 2 ^ 21 :=
    div_le_div_of_nonneg_right hKS (by positivity)
  have hpos : (0 : ℚ) ≤ 1 / (1000 * n) := by
    have hnq : (0 : ℚ) < n := by exact_mod_cast (by omega : (0 : ℤ) < n)
    positivity
  constructor <;> linarith [hround.1, hround.2]

/-- Distance between reported and exact average: at most one microsecond
divided by `n`, from the truncation, plus `2^-21` of the exact average, from
the four roundings. -/
theorem averageLatency_error (tpm : ℕ) (T n : ℤ) (htpm : 0 < tpm) (hn : 1 ≤ n) :
    |averageLatency tpm T n - averageLatencySpec tpm T n|
      ≤ 1 / (1000 * n) + |averageLatencySpec tpm T n| / 2 ^ 21 := by
  rcases le_total 0 T with hT | hT
  · exact averageLatency_error_nonneg tpm T n htpm hT hn
  · have h := averageLatency_error_nonneg tpm (-T) n htpm (by omega) hn
    rw [averageLatency_neg, averageLatencySpec_neg, abs_neg] at h
    rw [show averageLatency tpm T n - averageLatencySpec tpm T n =
      -(-averageLatency tpm T n - -averageLatencySpec tpm T n) by ring, abs_neg]
    exact h

/-- When the span is `m * n` whole milliseconds and below `2^24` microseconds,
no step truncates or rounds and the reported average is `m`. -/
theorem averageLatency_exact (tpm : ℕ) (T n m : ℤ) (htpm : 0 < tpm) (hn : 1 ≤ n)
    (hT : T = tpm * (1000 * (m * n))) (hsmall : |1000 * (m * n)| < 2 ^ 24) :
    averageLatency tpm T n = m ∧ averageLatencySpec tpm T n = m := by
  have hnq : (n : ℚ) ≠ 0 := by exact_mod_cast (by omega : n ≠ 0)
  have hkq : (tpm : ℚ) ≠ 0 := by exact_mod_cast htpm.ne'
  have hk : (tpm : ℤ) ≠ 0 := by exact_mod_cast htpm.ne'
  constructor
  · have hc : T.tdiv tpm = 1000 * (m * n) := by
      rw [hT]
      exact Int.mul_tdiv_cancel_left _ hk
    by_cases hm : m = 0
    · unfold averageLatency
      simp [hc, hm, binary32_zero]
    · have hmn : |m * n| < 2 ^ 24 := by
        rw [abs_mul] at hsmall
        have : |m * n| ≤ |(1000 : ℤ)| * |m * n| := by
          have h0 := abs_nonneg (m * n)
          simp only [abs_of_pos (by norm_num : (0 : ℤ) < 1000)]
          linarith
        exact lt_of_le_of_lt this hsmall
      have hm1 : 1 ≤ |m| := Int.one_le_abs hm
      have hn1 : |n| = n := abs_of_pos (by omega)
      have hnlt : |n| < 2 ^ 24 := by
        rw [abs_mul] at hmn
        calc |n| = 1 * |n| := (one_mul _).symm
          _ ≤ |m| * |n| := Int.mul_le_mul_of_nonneg_right hm1 (abs_nonneg n)
          _ < 2 ^ 24 := hmn
      have hmlt : |m| < 2 ^ 24 := by
        rw [abs_mul, hn1] at hmn
        calc |m| = |m| * 1 := (mul_one _).symm
          _ ≤ |m| * n := Int.mul_le_mul_of_nonneg_left hn (abs_nonneg m)
          _ < 2 ^ 24 := hmn
      unfold averageLatency
      simp only [hc]
      rw [binary32_intCast _ hsmall]
      have h1 : ((1000 * (m * n) : ℤ) : ℚ) / 1000 = ((m * n : ℤ) : ℚ) := by
        push_cast
        field_simp
      rw [h1, binary32_intCast _ hmn, binary32_intCast _ hnlt]
      have h2 : ((m * n : ℤ) : ℚ) / n = (m : ℚ) := by
        push_cast
        field_simp
      rw [h2, binary32_intCast _ hmlt]
  · unfold averageLatencySpec
    rw [hT]
    push_cast
    field_simp
    ring

/-- Size of a rounded value relative to the value rounded. -/
theorem binary32_abs_bounds (q : ℚ) :
    (1 - 1 / 2 ^ 24) * |q| ≤ |binary32 q| ∧ |binary32 q| ≤ (1 + 1 / 2 ^ 24) * |q| := by
  have h := binary32_abs_sub_le q
  have h1 : |binary32 q| - |q| ≤ |binary32 q - q| := abs_sub_abs_le_abs_sub _ _
  have h2 : |q| - |binary32 q| ≤ |binary32 q - q| := by
    rw [abs_sub_comm (binary32 q) q]
    exact abs_sub_abs_le_abs_sub _ _
  constructor <;> linarith

/-- For every non-zero 64 bit microsecond count and every `int` iteration
count `n >= 1`, the quotients that are rounded on the way to the reported
average lie in the normal range of binary32, between `2^-126` and `2^127`
(the count and `n` themselves are integers below `2^63`): no rounding in
`averageLatency` overflows or reaches the subnormal range. -/
theorem averageLatency_operands_normal (count n : ℤ) (hc1 : 1 ≤ |count|)
    (hc : |count| < 2 ^ 63) (hn : 1 ≤ n) (hn31 : n < 2 ^ 31) :
    ((2 : ℚ) ^ (-126 : ℤ) ≤ |binary32 count / 1000| ∧ |binary32 count / 1000| < 2 ^ (127 : ℤ))
    ∧ ((2 : ℚ) ^ (-126 : ℤ) ≤ |binary32 (binary32 count / 1000) / binary32 n|
      ∧ |binary32 (binary32 count / 1000) / binary32 n| < 2 ^ (127 : ℤ)) := by
  have hcq1 : (1 : ℚ) ≤ |(count : ℚ)| := by exact_mod_cast hc1
  have hcq : |(count : ℚ)| ≤ 2 ^ 63 := by exact_mod_cast hc.le
  have hnq1 : (1 : ℚ) ≤ |(n : ℚ)| := by
    rw [abs_of_pos (by exact_mod_cast (by omega : (0 : ℤ) < n))]
    exact_mod_cast hn
  have hnq : |(n : ℚ)| ≤ 2 ^ 31 := by
    rw [abs_of_pos (by exact_mod_cast (by omega : (0 : ℤ) < n))]
    exact_mod_cast hn31.le
  obtain ⟨ha1, ha2⟩ := binary32_abs_bounds (count : ℚ)
  have hx2 : |binary32 (count : ℚ) / 1000| = |binary32 (count : ℚ)| / 1000 := by
    rw [abs_div]
    norm_num
  obtain ⟨hb1, hb2⟩ := binary32_abs_bounds (binary32 (count : ℚ) / 1000)
  obtain ⟨hd1, hd2⟩ := binary32_abs_bounds (n : ℚ)
  have hx2lo : (1 - 1 / 2 ^ 24 : ℚ) / 1000 ≤ |binary32 (count : ℚ) / 1000| := by
    rw [hx2]
    apply div_le_div_of_nonneg_right _ (by norm_num)
    nlinarith
  have hx2hi : |binary32 (count : ℚ) / 1000| ≤ (1 + 1 / 2 ^ 24) * 2 ^ 63 / 1000 := by
    rw [hx2]
    apply div_le_div_of_nonneg_right _ (by norm_num)
    nlinarith
  have hblo : (1 - 1 / 2 ^ 24 : ℚ) * ((1 - 1 / 2 ^ 24) / 1000)
      ≤ |binary32 (binary32 (count : ℚ) / 1000)| := by
    nlinarith
  have hbhi : |binary32 (binary32 (count : ℚ) / 1000)|
      ≤ (1 + 1 / 2 ^ 24 : ℚ) * ((1 + 1 / 2 ^ 24) * 2 ^ 63 / 1000) := by
    nlinarith
  have hdlo : (1 - 1 / 2 ^ 24 : ℚ) ≤ |binary32 (n : ℚ)| := by nlinarith
  have hdhi : |binary32 (n : ℚ)| ≤ (1 + 1 / 2 ^ 24 : ℚ) * 2 ^ 31 := by nlinarith
  have hdpos : (0 : ℚ) < |binary32 (n : ℚ)| := lt_of_lt_of_le (by norm_num) hdlo
  refine ⟨⟨le_trans (by norm_num) hx2lo, lt_of_le_of_lt hx2hi (by norm_num)⟩, ?_, ?_⟩
  · rw [abs_div, le_div_iff₀ hdpos]
    calc (2 : ℚ) ^ (-126 : ℤ) * |binary32 (n : ℚ)|
        ≤ 2 ^ (-126 : ℤ) * ((1 + 1 / 2 ^ 24) * 2 ^ 31) :=
          mul_le_mul_of_nonneg_left hdhi (by positivity)
      _ ≤ (1 - 1 / 2 ^ 24 : ℚ) * ((1 - 1 / 2 ^ 24) / 1000) := by norm_num
      _ ≤ _ := hblo
  · rw [abs_div, div_lt_iff₀ hdpos]
    calc |binary32 (binary32 (count : ℚ) / 1000)|
        ≤ (1 + 1 / 2 ^ 24 : ℚ) * ((1 + 1 / 2 ^ 24) * 2 ^ 63 / 1000) := hbhi
      _ < 2 ^ (127 : ℤ) * (1 - 1 / 2 ^ 24) := by norm_num
      _ ≤ 2 ^ (127 : ℤ) * |binary32 (n : ℚ)| :=
          mul_le_mul_of_nonneg_left hdlo (by positivity)

/-- A scaled significand exactly half way between `r` and `r + 1`, `r` even,
rounds to `r`. -/
theorem roundEven_of_tie (x : ℚ) (r : ℤ) (h : x = r + 1 / 2) (hr : r % 2 = 0) :
    roundEven x = r := by
  have hfloor : ⌊x⌋ = r := by
    rw [Int.floor_eq_iff, h]
    constructor <;> norm_num
  have hfrac : x - (r : ℚ) = 1 / 2 := by
    rw [h]
    ring
  unfold roundEven
  rw [hfloor, hfrac]
  simp [hr]

/-- Evaluation of `binary32` at a positive value with binary exponent `e`
whose scaled significand is half way above the even integer `r`. -/
theorem binary32_eval_tie (q : ℚ) (e r : ℤ) (hlo : (2 : ℚ) ^ e ≤ q) (hhi : q < 2 ^ (e + 1))
    (hx : q / 2 ^ (e - 23) = r + 1 / 2) (hr : r % 2 = 0) : binary32 q = r * 2 ^ (e - 23) := by
  have hpos : 0 < q := lt_of_lt_of_le (by positivity) hlo
  have he : Int.log 2 q = e := by
    have h1 : e ≤ Int.log 2 q :=
      (Int.zpow_le_iff_le_log (by norm_num) hpos).mp (by exact_mod_cast hlo)
    have h2 : Int.log 2 q < e + 1 :=
      (Int.lt_zpow_iff_log_lt (by norm_num) hpos).mp (by exact_mod_cast hhi)
    omega
  rw [binary32_of_pos q hpos, he, roundEven_of_tie _ r hx hr]

/-- `1 / 1000.f`: one microsecond in milliseconds, as a `float`. -/
theorem binary32_one_thousandth : binary32 (1 / 1000) = 8589935 / 8589934592 := by
  rw [binary32_eval (1 / 1000) (-10) 8589935 (by norm_num) (by norm_num)
    (by rw [abs_lt]; norm_num)]
  norm_num

/-- The reported average of every span of one whole microseconds and `n = 1`. -/
theorem averageLatency_one_microsecond (tpm : ℕ) (T : ℤ) (hc : T.tdiv tpm = 1) :
    averageLatency tpm T 1 = 8589935 / 8589934592 := by
  have hkeep : binary32 (8589935 / 8589934592) = 8589935 / 8589934592 := by
    rw [binary32_eval (8589935 / 8589934592) (-10) 8589935 (by norm_num) (by norm_num)
      (by rw [abs_lt]; norm_num)]
    norm_num
  have hone : binary32 1 = 1 := by
    have := binary32_intCast 1 (by norm_num)
    simpa using this
  unfold averageLatency
  simp only [hc, Int.cast_one, hone, one_div, div_one]
  rw [← one_div, binary32_one_thousandth, hkeep]

/-- The reported average of 123457000 ns over 100 iterations. -/
theorem averageLatency_sample_hundred :
    averageLatency 1000 123457000 100 = 2589081 / 2097152 := by
  have hcount : binary32 ((123457 : ℤ) : ℚ) = 123457 := by
    have := binary32_intCast 123457 (by norm_num)
    simpa using this
  have hhundred : binary32 ((100 : ℤ) : ℚ) = 100 := by
    have := binary32_intCast 100 (by norm_num)
    simpa using this
  have hdur : binary32 (123457 / 1000) = 4045439 / 32768 := by
    rw [binary32_eval (123457 / 1000) 6 16181756 (by norm_num) (by norm_num)
      (by rw [abs_lt]; norm_num)]
    norm_num
  have havg : binary32 (4045439 / 32768 / 100) = 2589081 / 2097152 := by
    rw [binary32_eval (4045439 / 32768 / 100) 0 10356324 (by norm_num) (by norm_num)
      (by rw [abs_lt]; norm_num)]
    norm_num
  unfold averageLatency
  have hc : (123457000 : ℤ).tdiv ((1000 : ℕ) : ℤ) = 123457 := by decide
  simp only [hc, hcount, hhundred, hdur, havg]

/-- The reported average of 16777217000 ns over one iteration: the count
`16777217` is itself not a `float` and becomes `16777216`. -/
theorem averageLatency_sample_large :
    averageLatency 1000 16777217000 1 = 8589935 / 512 := by
  have hcount : binary32 ((16777217 : ℤ) : ℚ) = 16777216 := by
    have h : binary32 (16777217 : ℚ) = (8388608 : ℤ) * 2 ^ ((24 : ℤ) - 23) :=
      binary32_eval_tie 16777217 24 8388608 (by norm_num) (by norm_num) (by norm_num)
        (by decide)
    rw [show ((16777217 : ℤ) : ℚ) = 16777217 by norm_num, h]
    norm_num
  have hone : binary32 ((1 : ℤ) : ℚ) = 1 := by
    have := binary32_intCast 1 (by norm_num)
    simpa using this
  have hdur : binary32 (16777216 / 1000) = 8589935 / 512 := by
    rw [binary32_eval (16777216 / 1000) 14 8589935 (by norm_num) (by norm_num)
      (by rw [abs_lt]; norm_num)]
    norm_num
  have hkeep : binary32 (8589935 / 512) = 8589935 / 512 := by
    rw [binary32_eval (8589935 / 512) 14 8589935 (by norm_num) (by norm_num)
      (by rw [abs_lt]; norm_num)]
    norm_num
  unfold averageLatency
  have hc : (16777217000 : ℤ).tdiv ((1000 : ℕ) : ℤ) = 16777217 := by decide
  simp only [hc, hcount, hone, hdur, div_one, hkeep]

/-- C8 as stated fails. With nanosecond ticks, a span of 1999 ns and `n = 1`
is reported as `8589935 / 2^33` ms, the same as a span of 1000 ns, while
`T / n` is `1999 / 10^6` ms; with 100 ns ticks the same happens to a span of
19 ticks. With `n = 100` and a span of 123457000 ns, which is a whole number
of microseconds, the report is `2589081 / 2^21` ms while `T / n` is
`123457 / 10^5` ms; and a span of 16777217000 ns with `n = 1` is reported as
`8589935 / 512` ms while `T / n` is `16777217 / 1000` ms. -/
theorem averageLatency_differs_from_spec :
    (averageLatency 1000 1999 1 = 8589935 / 8589934592
      ∧ averageLatencySpec 1000 1999 1 = 1999 / 1000000
      ∧ averageLatency 1000 1999 1 = averageLatency 1000 1000 1)
    ∧ (averageLatency 10 19 1 = 8589935 / 8589934592
      ∧ averageLatencySpec 10 19 1 = 19 / 10000)
    ∧ (averageLatency 1000 123457000 100 = 2589081 / 2097152
      ∧ averageLatencySpec 1000 123457000 100 = 123457 / 100000)
    ∧ (averageLatency 1000 16777217000 1 = 8589935 / 512
      ∧ averageLatencySpec 1000 16777217000 1 = 16777217 / 1000) := by
  refine ⟨⟨averageLatency_one_microsecond 1000 1999 (by decide),
      by norm_num [averageLatencySpec], ?_⟩,
    ⟨averageLatency_one_microsecond 10 19 (by decide), by norm_num [averageLatencySpec]⟩,
    ⟨averageLatency_sample_hundred, by norm_num [averageLatencySpec]⟩,
    ⟨averageLatency_sample_large, by norm_num [averageLatencySpec]⟩⟩
  rw [averageLatency_one_microsecond 1000 1999 (by decide),
    averageLatency_one_microsecond 1000 1000 (by decide)]

/-- C8, amended. For every span `T` in clock ticks (at least one tick to the
microsecond) and every iteration count `n >= 1`, the average `main` reports
is computed in `float` from `T` truncated to whole microseconds: spans with
the same whole number of microseconds are reported alike; the report differs
from `T / n` (in milliseconds) by at most one microsecond divided by `n` plus
`2^-21` of `T / n`; and it equals `T / n` exactly whenever `T` is `m * n`
whole milliseconds and less than `2^24` microseconds. -/
theorem averageLatency_truncates_then_rounds (ticksPerMicrosecond : ℕ) (T n : ℤ)
    (hticks : 0 < ticksPerMicrosecond) (hn : 1 ≤ n) :
    (∀ T2 : ℤ, T2.tdiv ticksPerMicrosecond = T.tdiv ticksPerMicrosecond →
      averageLatency ticksPerMicrosecond T2 n = averageLatency ticksPerMicrosecond T n)
    ∧ |averageLatency ticksPerMicrosecond T n - averageLatencySpec ticksPerMicrosecond T n|
        ≤ 1 / (1000 * n) + |averageLatencySpec ticksPerMicrosecond T n| / 2 ^ 21
    ∧ ∀ m : ℤ, T = ticksPerMicrosecond * (1000 * (m * n)) → |1000 * (m * n)| < 2 ^ 24 →
        averageLatency ticksPerMicrosecond T n = averageLatencySpec ticksPerMicrosecond T n := by
  refine ⟨?_, averageLatency_error ticksPerMicrosecond T n hticks hn, ?_⟩
  · intro T2 hsame
    rw [averageLatency_whole_microseconds ticksPerMicrosecond T2,
      averageLatency_whole_microseconds ticksPerMicrosecond T, hsame]
  · intro m hT hsmall
    obtain ⟨h1, h2⟩ := averageLatency_exact ticksPerMicrosecond T n m hticks hn hT hsmall
    rw [h1, h2]

/-- Instance of `averageLatency_truncates_then_rounds` with 100 ns ticks,
`n = 100` and a span of 300 ms: the report is exact, and a span 900 ns longer
is reported alike. -/
theorem averageLatency_truncates_then_rounds_witness :
    (0 < 10 ∧ (1 : ℤ) ≤ 100)
    ∧ averageLatency 10 3000000 100 = averageLatencySpec 10 3000000 100
    ∧ averageLatency 10 3000009 100 = averageLatency 10 3000000 100 :=
  have h := averageLatency_truncates_then_rounds 10 3000000 100 (by decide) (by decide)
  ⟨⟨by decide, by decide⟩, h.2.2 3 (by norm_num) (by norm_num), h.1 3000009 (by decide)⟩

end DMLBench
